import Mathlib

/-!
Verification of the santaCruzService photo submission and moderation backend.

The development shallowly embeds the photo lifecycle code:
the Mongoose Photo model (src/unnamed/part_002), the Cloudflare
image-host wrapper (src/utils/cloudflare.js together with the fuller
revision in src/unnamed/part_000), and the Express route handlers of
src/routes/photos.js (GET /, POST /upload, PUT /:id/approve,
PUT /:id/reject, POST /direct-upload).

External effects are made explicit: the image host, the persistence
store and the local filesystem are modelled by an environment record
that fixes the outcome of each external call, and every handler is a
pure function from that environment, the current store contents and the
request to a result describing the HTTP response, the new store
contents, whether the staged temp file of the request still exists, and
the image-host calls that were made.
-/

namespace SantaCruz

/-- The status enum of the Photo schema: pending, approved, rejected
(default pending). -/
inductive Status where
  | pending
  | approved
  | rejected
deriving DecidableEq, Repr

/-- String form of a status, as stored by Mongoose. -/
def Status.toString : Status → String
  | .pending => "pending"
  | .approved => "approved"
  | .rejected => "rejected"

/-- The PhotoRecord entity, following the Mongoose Photo schema.
Timestamps are modelled as naturals; optional schema fields are
Option-valued. -/
structure Photo where
  id : Nat
  contributor : String
  date : String
  floorId : String
  roomId : Option String
  tempFilePath : Option String
  cloudflareId : String
  imageUrl : String
  originalFileName : Option String
  status : Status
  submittedAt : Nat
  approvedAt : Option Nat
deriving DecidableEq, Repr

/-- Characters of the final path segment: everything after the last
slash, as in the basename step of path.extname. -/
def basenameChars (l : List Char) : List Char :=
  l.foldl (fun acc c => if c == '/' then [] else acc ++ [c]) []

/-- The suffix of the list starting at its last dot, if any. -/
def lastDotSuffix : List Char → Option (List Char)
  | [] => none
  | c :: rest =>
    if c == '.' then
      match lastDotSuffix rest with
      | some s => some s
      | none => some (c :: rest)
    else lastDotSuffix rest

/-- Embedding of path.extname: the extension of the basename from its
last dot, empty when the basename has no dot past its first
character. -/
def extname (p : String) : String :=
  match basenameChars p.data with
  | [] => ""
  | _ :: rest =>
    match lastDotSuffix rest with
    | some s => String.mk s
    | none => ""

/-- Lowercasing character by character, the embedding of the
toLowerCase call applied to extensions. -/
def lowerStr (s : String) : String :=
  String.mk (s.data.map Char.toLower)

/-- Whether the first list is an initial segment of the second. -/
def beginsChars : List Char → List Char → Bool
  | [], _ => true
  | _ :: _, [] => false
  | a :: as, b :: bs => a == b && beginsChars as bs

/-- Whether the string s begins with the string pre. -/
def strBegins (s pre : String) : Bool :=
  beginsChars pre.data s.data

/-- The Cloudflare Images format allow-list of src/utils/cloudflare.js. -/
def SUPPORTED_FORMATS : List String :=
  [".jpg", ".jpeg", ".png", ".gif", ".webp", ".ico", ".svg", ".avif"]

/-- Embedding of isFormatSupported: lowercased extension is a member of
the allow-list. -/
def isFormatSupported (filePath : String) : Bool :=
  SUPPORTED_FORMATS.contains (lowerStr (extname filePath))

/-- The body of a Cloudflare API response, as consumed by the handlers:
a success flag and the host-assigned image id under result.id. -/
structure CFResponse where
  success : Bool
  id : String
deriving DecidableEq, Repr

/-- Outcome of the axios call inside uploadImage: either a response body
or a thrown error. -/
inductive UploadResult where
  | ok (resp : CFResponse)
  | error (msg : String)
deriving DecidableEq, Repr

/-- The staged file handed to uploadImage: its path, its size in bytes,
and whether fs.accessSync finds it readable. -/
structure UploadFile where
  path : String
  size : Nat
  readable : Bool
deriving DecidableEq, Repr

/-- The 10 MB size ceiling (Cloudflare max size), shared by the multer
limits and the uploadImage size guard. -/
def MAX_FILE_SIZE : Nat := 10 * 1024 * 1024

/-- Result of running uploadImage: what it returned or threw, and how
many network calls to the image host it made. -/
structure UploadOutcome where
  result : UploadResult
  netCalls : Nat
deriving DecidableEq, Repr

/-- Embedding of uploadImage (src/unnamed/part_000 revision, whose
guards subsume the src/utils/cloudflare.js revision): the format guard
throws first; then the readability and size checks throw, the size
error being rewrapped by the enclosing access-check catch; only then is
the network request issued, its outcome given by the environment. -/
def uploadImage (hostResponse : UploadResult) (file : UploadFile) : UploadOutcome :=
  if !isFormatSupported file.path then
    ⟨.error "Unsupported image format", 0⟩
  else if !file.readable then
    ⟨.error "Cannot access upload file", 0⟩
  else if MAX_FILE_SIZE < file.size then
    ⟨.error "Cannot access upload file: File too large. Maximum size is 10MB.", 0⟩
  else
    ⟨hostResponse, 1⟩

/-- Embedding of getImageUrl: pure derivation of the delivery URL from
the account hash, the image id and the variant name. -/
def getImageUrl (accountHash imageId variant : String) : String :=
  "https://imagedelivery.net/" ++ accountHash ++ "/" ++ imageId ++ "/" ++ variant

/-- Embedding of the multer fileFilter of src/routes/photos.js: the
mimetype must start with image/ and the lowercased extension of the
original name must be in the allow-list. -/
def fileFilterAccepts (mimetype originalname : String) : Bool :=
  strBegins mimetype "image/" && SUPPORTED_FORMATS.contains (lowerStr (extname originalname))

/-- Multer acceptance: fileFilter plus the 10 MB fileSize limit. -/
def multerAccepts (mimetype originalname : String) (size : Nat) : Bool :=
  fileFilterAccepts mimetype originalname && decide (size ≤ MAX_FILE_SIZE)

/-- The staged file attached to a request by multer: the unique staged
filename, the original client filename, the size and readability of the
staged file. -/
structure ReqFile where
  filename : String
  originalname : String
  size : Nat
  readable : Bool
deriving DecidableEq, Repr

/-- A submission request after multipart reception: the optional staged
file and the optional form fields. -/
structure UploadReq where
  file : Option ReqFile
  contributor : Option String
  floorId : Option String
  roomId : Option String
deriving DecidableEq, Repr

/-- JavaScript truthiness of an optional string form field: present and
non-empty. -/
def truthy : Option String → Bool
  | none => false
  | some s => !(s == "")

/-- The JavaScript expression v or-else d on a string field: the value
when truthy, the default otherwise. -/
def jsOr (v : Option String) (d : String) : String :=
  if truthy v then v.getD d else d

/-- The environment fixing every external outcome of one handler run:
the id the store will assign, the clock, the formatted date string, the
Cloudflare account hash, the image-host upload outcome, whether the
image-host delete succeeds, whether the persistence save succeeds, and
whether a local unlink succeeds. -/
structure Env where
  nextId : Nat
  now : Nat
  dateStr : String
  accountHash : String
  hostUpload : UploadResult
  hostDeleteOk : Bool
  saveOk : Bool
  unlinkOk : Bool
deriving Repr

/-- The HTTP response classes the photo handlers produce. -/
inductive Response where
  | created (photoId : Nat)
  | badRequest (msg : String)
  | notFound
  | ok
  | serverError (msg : String)
deriving DecidableEq, Repr

/-- Observable result of one handler run: the response, the persisted
store afterwards, whether the staged temp file tracked by the run still
exists, the number of image-host upload calls, and the ids the handler
asked the image host to delete. -/
structure HandlerResult where
  response : Response
  store : List Photo
  tempFileExists : Bool
  hostUploadCalls : Nat
  hostDeleteCalls : List String
deriving Repr

/-- The path under which multer stages the request file, as recorded in
the tempFilePath field by POST /upload. -/
def stagedPath (f : ReqFile) : String := "/uploads/temp/" ++ f.filename

/-- The Photo document POST /upload constructs after a successful
Cloudflare upload. -/
def mkUploadPhoto (env : Env) (req : UploadReq) (f : ReqFile) (cloudflareId : String) : Photo :=
  { id := env.nextId
    contributor := req.contributor.getD ""
    date := env.dateStr
    floorId := req.floorId.getD ""
    roomId := if truthy req.roomId then req.roomId else none
    tempFilePath := some (stagedPath f)
    cloudflareId := cloudflareId
    imageUrl := getImageUrl env.accountHash cloudflareId "public"
    originalFileName := some f.originalname
    status := .pending
    submittedAt := env.now
    approvedAt := none }

/-- Embedding of the POST /upload handler of src/routes/photos.js.
Branches in source order: missing file, missing contributor or floorId,
Cloudflare upload (throw or non-success both reach the inner catch
which best-effort unlinks the temp file and rethrows to a 500), then
save. On the success path the temp file is NOT deleted; its path is
stored in the record for later cleanup by approve or reject. A save
failure also reaches the inner catch: no record, best-effort unlink,
500. -/
def postUpload (env : Env) (store : List Photo) (req : UploadReq) : HandlerResult :=
  match req.file with
  | none => ⟨.badRequest "No file uploaded", store, false, 0, []⟩
  | some f =>
    if !truthy req.contributor || !truthy req.floorId then
      ⟨.badRequest "Please provide contributor name and floor ID", store, true, 0, []⟩
    else
      let up := uploadImage env.hostUpload ⟨f.filename, f.size, f.readable⟩
      match up.result with
      | .error e => ⟨.serverError e, store, !env.unlinkOk, up.netCalls, []⟩
      | .ok resp =>
        if !resp.success then
          ⟨.serverError "Failed to upload image to Cloudflare", store, !env.unlinkOk, up.netCalls, []⟩
        else if env.saveOk then
          ⟨.created env.nextId, store ++ [mkUploadPhoto env req f resp.id], true, up.netCalls, []⟩
        else
          ⟨.serverError "Server error during upload", store, !env.unlinkOk, up.netCalls, []⟩

/-- The Photo document POST /direct-upload constructs: same fields as
the standard upload except that no tempFilePath is recorded and the
form fields have already been defaulted. -/
def mkDirectPhoto (env : Env) (contributor floorId roomId : String) (f : ReqFile) (cloudflareId : String) : Photo :=
  { id := env.nextId
    contributor := contributor
    date := env.dateStr
    floorId := floorId
    roomId := if roomId == "" then none else some roomId
    tempFilePath := none
    cloudflareId := cloudflareId
    imageUrl := getImageUrl env.accountHash cloudflareId "public"
    originalFileName := some f.originalname
    status := .pending
    submittedAt := env.now
    approvedAt := none }

/-- Embedding of the POST /direct-upload handler of
src/routes/photos.js. Missing form fields are defaulted (contributor to
Anonymous, floorId to Unknown, roomId to the empty string) instead of
rejected. On success the temp file is deleted best-effort after the
save; on any upload or save failure the temp file is deleted
best-effort and a 500 returned with no record persisted. -/
def postDirectUpload (env : Env) (store : List Photo) (req : UploadReq) : HandlerResult :=
  match req.file with
  | none => ⟨.badRequest "No file uploaded", store, false, 0, []⟩
  | some f =>
    let contributor := jsOr req.contributor "Anonymous"
    let floorId := jsOr req.floorId "Unknown"
    let roomId := jsOr req.roomId ""
    let up := uploadImage env.hostUpload ⟨f.filename, f.size, f.readable⟩
    match up.result with
    | .error e => ⟨.serverError e, store, !env.unlinkOk, up.netCalls, []⟩
    | .ok resp =>
      if !resp.success then
        ⟨.serverError "Failed to upload to Cloudflare", store, !env.unlinkOk, up.netCalls, []⟩
      else if env.saveOk then
        ⟨.created env.nextId, store ++ [mkDirectPhoto env contributor floorId roomId f resp.id],
          !env.unlinkOk, up.netCalls, []⟩
      else
        ⟨.serverError "Server error during upload", store, !env.unlinkOk, up.netCalls, []⟩

/-- Embedding of Photo.findById over the modelled store. -/
def findById (store : List Photo) (id : Nat) : Option Photo :=
  store.find? (fun p => p.id == id)

/-- Persisting a mutated document: every stored document with the given
id is replaced by the new value. -/
def updateById (store : List Photo) (id : Nat) (p : Photo) : List Photo :=
  store.map (fun q => if q.id == id then p else q)

/-- Embedding of the PUT /:id/approve handler of src/routes/photos.js.
The only guard is on an already-approved record. The approved status
and approvedAt are saved first; afterwards, if a tempFilePath is
recorded and the file exists it is unlinked (the unlink is NOT wrapped
in its own try, so an unlink failure surfaces as a 500 after the first
save already persisted the approval) and a second save clears
tempFilePath. -/
def putApprove (env : Env) (store : List Photo) (fileExists : Bool) (id : Nat) : HandlerResult :=
  match findById store id with
  | none => ⟨.notFound, store, fileExists, 0, []⟩
  | some photo =>
    if photo.status = .approved then
      ⟨.badRequest "Photo already approved", store, fileExists, 0, []⟩
    else
      let photo1 := { photo with status := Status.approved, approvedAt := some env.now }
      if !env.saveOk then
        ⟨.serverError "Server error approving photo", store, fileExists, 0, []⟩
      else
        match photo1.tempFilePath with
        | none => ⟨.ok, updateById store id photo1, fileExists, 0, []⟩
        | some _ =>
          if fileExists then
            if env.unlinkOk then
              ⟨.ok, updateById store id { photo1 with tempFilePath := none }, false, 0, []⟩
            else
              ⟨.serverError "Server error approving photo", updateById store id photo1, true, 0, []⟩
          else
            ⟨.ok, updateById store id photo1, fileExists, 0, []⟩

/-- Embedding of the PUT /:id/reject handler of src/routes/photos.js.
The only guard is on an already-rejected record. A truthy cloudflareId
is then deleted from the image host inside its own try/catch, so a host
delete failure is logged and ignored. The temp file unlink is not
wrapped, so its failure aborts with a 500 before the status update.
Finally status is set to rejected, tempFilePath cleared, and the
document saved. -/
def putReject (env : Env) (store : List Photo) (fileExists : Bool) (id : Nat) : HandlerResult :=
  match findById store id with
  | none => ⟨.notFound, store, fileExists, 0, []⟩
  | some photo =>
    if photo.status = .rejected then
      ⟨.badRequest "Photo already rejected", store, fileExists, 0, []⟩
    else
      let deletes := if photo.cloudflareId == "" then [] else [photo.cloudflareId]
      if photo.tempFilePath.isSome && fileExists && !env.unlinkOk then
        ⟨.serverError "Server error rejecting photo", store, fileExists, 0, deletes⟩
      else
        let fileExists1 := fileExists && !photo.tempFilePath.isSome
        let photo1 := { photo with status := Status.rejected, tempFilePath := none }
        if env.saveOk then
          ⟨.ok, updateById store id photo1, fileExists1, 0, deletes⟩
        else
          ⟨.serverError "Server error rejecting photo", store, fileExists1, 0, deletes⟩

/-- The filter document built by GET /: an equality predicate per
truthy query parameter. -/
def matchesFilter (status floorId : Option String) (p : Photo) : Bool :=
  (!truthy status || p.status.toString == status.getD "") &&
  (!truthy floorId || p.floorId == floorId.getD "")

/-- The sort comparator of GET /: submittedAt descending. -/
def submittedDesc (a b : Photo) : Bool :=
  decide (b.submittedAt ≤ a.submittedAt)

/-- Embedding of the GET / handler: find with the filter document,
sorted by submittedAt descending. -/
def getPhotos (store : List Photo) (status floorId : Option String) : List Photo :=
  (store.filter (matchesFilter status floorId)).mergeSort submittedDesc

/-- A benign environment: host upload succeeds with id img1 and every
external operation succeeds. -/
def exEnv : Env :=
  { nextId := 1, now := 5, dateStr := "Mar 2024", accountHash := "hash",
    hostUpload := .ok ⟨true, "img1"⟩, hostDeleteOk := true, saveOk := true, unlinkOk := true }

/-- A valid submission request with a readable staged jpg file. -/
def exReq : UploadReq :=
  { file := some ⟨"123-456.jpg", "photo.jpg", 100, true⟩,
    contributor := some "Jane", floorId := some "2", roomId := none }

/-- A request whose contributor field is absent. -/
def anonReq : UploadReq :=
  { file := some ⟨"123-456.jpg", "photo.jpg", 100, true⟩,
    contributor := none, floorId := some "2", roomId := none }

/-- A stored record in the rejected state. -/
def rejectedPhoto : Photo :=
  { id := 7, contributor := "Jane", date := "Mar 2024", floorId := "2",
    roomId := none, tempFilePath := none, cloudflareId := "img1",
    imageUrl := "https://imagedelivery.net/hash/img1/public",
    originalFileName := none, status := .rejected, submittedAt := 5, approvedAt := none }

/-- A stored record in the approved state. -/
def approvedPhoto : Photo :=
  { rejectedPhoto with status := Status.approved, approvedAt := some 4 }

/-- A stored record in the pending state. -/
def pendingPhoto : Photo :=
  { rejectedPhoto with status := Status.pending }

/-- A record found by id has that id. -/
theorem findById_id_eq (store : List Photo) (id : Nat) (q : Photo)
    (h : findById store id = some q) : q.id = id := by
  have := List.find?_some h
  simpa using this

/-- Replacing the found record by one carrying the same id is visible
to a subsequent lookup. -/
theorem findById_updateById (store : List Photo) (id : Nat) (p : Photo)
    (h : (findById store id).isSome = true) (hp : p.id = id) :
    findById (updateById store id p) id = some p := by
  induction store with
  | nil => simp [findById] at h
  | cons a rest ih =>
    by_cases ha : a.id = id
    · simp [findById, updateById, ha, hp]
    · have h2 : (findById rest id).isSome = true := by
        simpa [findById, List.find?_cons, ha] using h
      have := ih h2
      simpa [findById, updateById, ha, hp] using this

/-- An ok outcome of uploadImage can only come from the network branch,
so it is the environment response itself. -/
theorem uploadImage_ok (hr : UploadResult) (file : UploadFile) (resp : CFResponse)
    (h : (uploadImage hr file).result = .ok resp) : hr = .ok resp := by
  unfold uploadImage at h
  split at h
  · simp at h
  · split at h
    · simp at h
    · split at h
      · simp at h
      · simpa using h

/-- There is a pending record appended to the prior store contents. -/
def persistedPending (store out : List Photo) : Prop :=
  ∃ p, p.status = Status.pending ∧ out = store ++ [p]

/-- Claim C1 counterexample: a fully successful POST /upload run with a
valid submission persists a pending record AND leaves the staged temp
file in place, so the claimed dichotomy (record persisted with no
staged file remaining, or no record and the file removed) fails on the
success path of the standard upload endpoint. -/
theorem upload_success_keeps_staged_file :
    (postUpload exEnv [] exReq).store =
      [{ id := 1, contributor := "Jane", date := "Mar 2024", floorId := "2", roomId := none,
         tempFilePath := some "/uploads/temp/123-456.jpg", cloudflareId := "img1",
         imageUrl := "https://imagedelivery.net/hash/img1/public",
         originalFileName := some "photo.jpg", status := .pending, submittedAt := 5,
         approvedAt := none }] ∧
    (postUpload exEnv [] exReq).tempFileExists = true := by
  constructor <;> decide

/-- Claim C1 (amended): for every valid submission, with local unlink
succeeding, each submit endpoint ends in exactly one of two states; on
POST /upload success persists a pending record and intentionally keeps
the staged file (recording its path for later cleanup), while failure
persists nothing and removes the file; on POST /direct-upload success
persists a pending record and removes the file, failure persists
nothing and removes the file. -/
theorem submit_outcome_dichotomy (env : Env) (store : List Photo) (req : UploadReq) (f : ReqFile)
    (hf : req.file = some f) (hc : truthy req.contributor = true)
    (hfl : truthy req.floorId = true) (hu : env.unlinkOk = true) :
    (persistedPending store (postUpload env store req).store ∧
        (postUpload env store req).tempFileExists = true ∨
      (postUpload env store req).store = store ∧
        (postUpload env store req).tempFileExists = false) ∧
    (persistedPending store (postDirectUpload env store req).store ∧
        (postDirectUpload env store req).tempFileExists = false ∨
      (postDirectUpload env store req).store = store ∧
        (postDirectUpload env store req).tempFileExists = false) := by
  constructor
  · cases hr : (uploadImage env.hostUpload ⟨f.filename, f.size, f.readable⟩).result with
    | error e => right; simp [postUpload, hf, hc, hfl, hr, hu]
    | ok resp =>
      by_cases hs : resp.success
      · by_cases hsv : env.saveOk
        · left
          refine ⟨⟨mkUploadPhoto env req f resp.id, rfl, ?_⟩, ?_⟩ <;>
            simp [postUpload, hf, hc, hfl, hr, hs, hsv]
        · right; simp [postUpload, hf, hc, hfl, hr, hs, hsv, hu]
      · right
        simp only [Bool.not_eq_true] at hs
        simp [postUpload, hf, hc, hfl, hr, hs, hu]
  · cases hr : (uploadImage env.hostUpload ⟨f.filename, f.size, f.readable⟩).result with
    | error e => right; simp [postDirectUpload, hf, hr, hu]
    | ok resp =>
      by_cases hs : resp.success
      · by_cases hsv : env.saveOk
        · left
          refine ⟨⟨mkDirectPhoto env (jsOr req.contributor "Anonymous")
              (jsOr req.floorId "Unknown") (jsOr req.roomId "") f resp.id, rfl, ?_⟩, ?_⟩ <;>
            simp [postDirectUpload, hf, hr, hs, hsv, hu]
        · right; simp [postDirectUpload, hf, hr, hs, hsv, hu]
      · right
        simp only [Bool.not_eq_true] at hs
        simp [postDirectUpload, hf, hr, hs, hu]

/-- Witness for Claim C1: the amended dichotomy applied to a concrete
valid submission under a benign environment. -/
theorem submit_outcome_dichotomy_witness :
    (persistedPending [] (postUpload exEnv [] exReq).store ∧
        (postUpload exEnv [] exReq).tempFileExists = true ∨
      (postUpload exEnv [] exReq).store = [] ∧
        (postUpload exEnv [] exReq).tempFileExists = false) ∧
    (persistedPending [] (postDirectUpload exEnv [] exReq).store ∧
        (postDirectUpload exEnv [] exReq).tempFileExists = false ∨
      (postDirectUpload exEnv [] exReq).store = [] ∧
        (postDirectUpload exEnv [] exReq).tempFileExists = false) :=
  submit_outcome_dichotomy exEnv [] exReq ⟨"123-456.jpg", "photo.jpg", 100, true⟩ rfl rfl rfl rfl

/-- Claim C2 counterexample: PUT /:id/approve on a record whose status
is rejected does not fail with an InvalidTransition error; it succeeds
with a 200 and flips the record to approved. -/
theorem approve_on_rejected_succeeds :
    (putApprove exEnv [rejectedPhoto] false 7).response = .ok ∧
    (putApprove exEnv [rejectedPhoto] false 7).store =
      [{ rejectedPhoto with status := Status.approved, approvedAt := some 5 }] := by
  constructor <;> decide

/-- Claim C2 (amended): the approve guard checks only that the record
is not already approved; on a record in any other state, in particular
a rejected one, approve succeeds (given the save succeeds and the
record holds no temp file path) and persists status approved with
approvedAt set to the current clock. -/
theorem approve_guard_only_checks_approved (env : Env) (store : List Photo) (fe : Bool)
    (id : Nat) (photo : Photo) (hfind : findById store id = some photo)
    (hst : photo.status = .rejected) (htmp : photo.tempFilePath = none)
    (hsave : env.saveOk = true) :
    (putApprove env store fe id).response = .ok ∧
    (putApprove env store fe id).store =
      updateById store id { photo with status := Status.approved, approvedAt := some env.now } := by
  have hne : ¬ photo.status = Status.approved := by rw [hst]; intro h; cases h
  constructor <;> simp [putApprove, hfind, hne, hsave, htmp]

/-- Witness for Claim C2: the amended guard behaviour applied to a
concrete rejected record. -/
theorem approve_guard_only_checks_approved_witness :
    (putApprove exEnv [rejectedPhoto] false 7).response = .ok ∧
    (putApprove exEnv [rejectedPhoto] false 7).store =
      updateById [rejectedPhoto] 7
        { rejectedPhoto with status := Status.approved, approvedAt := some exEnv.now } :=
  approve_guard_only_checks_approved exEnv [rejectedPhoto] false 7 rejectedPhoto rfl rfl rfl rfl

/-- Claim C3 (confirmed): a second approve on an already-approved
record fails with the already-approved error, and a second reject on an
already-rejected record fails with the already-rejected error; in both
cases the store is unchanged, the tracked temp file is untouched and no
image-host delete is issued. -/
theorem repeat_transition_rejected_not_silent (env : Env) (store1 store2 : List Photo)
    (fe : Bool) (id1 id2 : Nat) (pA pR : Photo)
    (hfind1 : findById store1 id1 = some pA) (hA : pA.status = .approved)
    (hfind2 : findById store2 id2 = some pR) (hR : pR.status = .rejected) :
    ((putApprove env store1 fe id1).response = .badRequest "Photo already approved" ∧
      (putApprove env store1 fe id1).store = store1 ∧
      (putApprove env store1 fe id1).tempFileExists = fe ∧
      (putApprove env store1 fe id1).hostDeleteCalls = []) ∧
    ((putReject env store2 fe id2).response = .badRequest "Photo already rejected" ∧
      (putReject env store2 fe id2).store = store2 ∧
      (putReject env store2 fe id2).tempFileExists = fe ∧
      (putReject env store2 fe id2).hostDeleteCalls = []) := by
  constructor
  · refine ⟨?_, ?_, ?_, ?_⟩ <;> simp [putApprove, hfind1, hA]
  · refine ⟨?_, ?_, ?_, ?_⟩ <;> simp [putReject, hfind2, hR]

/-- Witness for Claim C3: the guards applied to a concrete approved
record and a concrete rejected record. -/
theorem repeat_transition_rejected_not_silent_witness :
    ((putApprove exEnv [approvedPhoto] true 7).response = .badRequest "Photo already approved" ∧
      (putApprove exEnv [approvedPhoto] true 7).store = [approvedPhoto] ∧
      (putApprove exEnv [approvedPhoto] true 7).tempFileExists = true ∧
      (putApprove exEnv [approvedPhoto] true 7).hostDeleteCalls = []) ∧
    ((putReject exEnv [rejectedPhoto] true 7).response = .badRequest "Photo already rejected" ∧
      (putReject exEnv [rejectedPhoto] true 7).store = [rejectedPhoto] ∧
      (putReject exEnv [rejectedPhoto] true 7).tempFileExists = true ∧
      (putReject exEnv [rejectedPhoto] true 7).hostDeleteCalls = []) :=
  repeat_transition_rejected_not_silent exEnv [approvedPhoto] [rejectedPhoto] true 7 7
    approvedPhoto rejectedPhoto rfl rfl rfl rfl

/-- Claim C4 (confirmed): reject on a pending record with a truthy
cloudflareId asks the image host to delete exactly that id exactly
once, and the outcome of that delete is invisible to the rest of the
run (the handler result is identical for a succeeding and a failing
host delete): with the save and local unlink succeeding, the record is
persisted as rejected either way. -/
theorem reject_attempts_host_delete_once (env : Env) (store : List Photo) (fe : Bool)
    (id : Nat) (photo : Photo) (hfind : findById store id = some photo)
    (hst : photo.status = .pending) (hcf : ¬ photo.cloudflareId = "")
    (hsave : env.saveOk = true) (hu : env.unlinkOk = true) :
    (putReject env store fe id).hostDeleteCalls = [photo.cloudflareId] ∧
    putReject { env with hostDeleteOk := true } store fe id =
      putReject { env with hostDeleteOk := false } store fe id ∧
    (putReject env store fe id).response = .ok ∧
    findById (putReject env store fe id).store id =
      some { photo with status := Status.rejected, tempFilePath := none } := by
  have hne : ¬ photo.status = Status.rejected := by rw [hst]; intro h; cases h
  have hceq : (photo.cloudflareId == "") = false := by simp [hcf]
  have hres : putReject env store fe id =
      ⟨.ok, updateById store id { photo with status := Status.rejected, tempFilePath := none },
        fe && !photo.tempFilePath.isSome, 0, [photo.cloudflareId]⟩ := by
    simp [putReject, hfind, hne, hceq, hsave, hu]
  have hid : ({ photo with status := Status.rejected, tempFilePath := none } : Photo).id = id := by
    simpa using findById_id_eq store id photo hfind
  have hsome : (findById store id).isSome = true := by rw [hfind]; rfl
  refine ⟨by rw [hres], rfl, by rw [hres], ?_⟩
  rw [hres]
  exact findById_updateById store id _ hsome hid

/-- Witness for Claim C4: reject applied to a concrete pending record. -/
theorem reject_attempts_host_delete_once_witness :
    (putReject exEnv [pendingPhoto] false 7).hostDeleteCalls = [pendingPhoto.cloudflareId] ∧
    putReject { exEnv with hostDeleteOk := true } [pendingPhoto] false 7 =
      putReject { exEnv with hostDeleteOk := false } [pendingPhoto] false 7 ∧
    (putReject exEnv [pendingPhoto] false 7).response = .ok ∧
    findById (putReject exEnv [pendingPhoto] false 7).store 7 =
      some { pendingPhoto with status := Status.rejected, tempFilePath := none } :=
  reject_attempts_host_delete_once exEnv [pendingPhoto] false 7 pendingPhoto rfl rfl
    (by decide) rfl rfl

/-- Claim C5 counterexample: a POST /direct-upload call with a missing
contributor field is not rejected with InvalidInput; the image host is
called once and a record is persisted. -/
theorem direct_upload_missing_contributor_not_rejected :
    truthy anonReq.contributor = false ∧
    (postDirectUpload exEnv [] anonReq).hostUploadCalls = 1 ∧
    (postDirectUpload exEnv [] anonReq).store.length = 1 ∧
    (postDirectUpload exEnv [] anonReq).response = .created 1 := by
  refine ⟨rfl, ?_, ?_, ?_⟩ <;> decide

/-- Claim C5 (amended): on the standard POST /upload endpoint a missing
(empty or absent) contributor or floorId fails with the invalid-input
error before any image-host call and with no record created; the
POST /direct-upload endpoint instead substitutes defaults and
proceeds. -/
theorem upload_missing_fields_rejected_before_io (env : Env) (store : List Photo)
    (req : UploadReq) (f : ReqFile) (hf : req.file = some f)
    (h : truthy req.contributor = false ∨ truthy req.floorId = false) :
    (postUpload env store req).response =
      .badRequest "Please provide contributor name and floor ID" ∧
    (postUpload env store req).hostUploadCalls = 0 ∧
    (postUpload env store req).store = store := by
  rcases h with h | h <;> refine ⟨?_, ?_, ?_⟩ <;> simp [postUpload, hf, h]

/-- Witness for Claim C5: the amended statement applied to a concrete
request with an absent contributor. -/
theorem upload_missing_fields_rejected_before_io_witness :
    (postUpload exEnv [] anonReq).response =
      .badRequest "Please provide contributor name and floor ID" ∧
    (postUpload exEnv [] anonReq).hostUploadCalls = 0 ∧
    (postUpload exEnv [] anonReq).store = [] :=
  upload_missing_fields_rejected_before_io exEnv [] anonReq
    ⟨"123-456.jpg", "photo.jpg", 100, true⟩ rfl (Or.inl rfl)

/-- The filter document matches a record exactly when each truthy query
parameter agrees with the corresponding field. -/
theorem matchesFilter_iff (status floorId : Option String) (p : Photo) :
    matchesFilter status floorId p = true ↔
      (∀ s, status = some s → ¬ s = "" → p.status.toString = s) ∧
      (∀ s, floorId = some s → ¬ s = "" → p.floorId = s) := by
  cases status with
  | none =>
    cases floorId with
    | none => simp [matchesFilter, truthy]
    | some t => by_cases ht : t = "" <;> simp [matchesFilter, truthy, ht]
  | some s =>
    cases floorId with
    | none => by_cases hs : s = "" <;> simp [matchesFilter, truthy, hs]
    | some t =>
      by_cases hs : s = "" <;> by_cases ht : t = "" <;>
        simp [matchesFilter, truthy, hs, ht]

/-- Claim C6 (confirmed): the listing is a permutation of exactly the
stored records matching the conjunction of the supplied equality
filters, it is ordered by submittedAt descending, and with both filters
omitted it is a permutation of the whole store, in the same order. -/
theorem list_query_contract (store : List Photo) (status floorId : Option String) :
    (getPhotos store status floorId).Perm (store.filter (matchesFilter status floorId)) ∧
    (∀ p, p ∈ getPhotos store status floorId ↔
      p ∈ store ∧ (∀ s, status = some s → ¬ s = "" → p.status.toString = s) ∧
        (∀ s, floorId = some s → ¬ s = "" → p.floorId = s)) ∧
    (getPhotos store status floorId).Pairwise (fun a b => b.submittedAt ≤ a.submittedAt) ∧
    (getPhotos store none none).Perm store := by
  refine ⟨List.mergeSort_perm _ _, ?_, ?_, ?_⟩
  · intro p
    rw [getPhotos, List.mem_mergeSort, List.mem_filter, matchesFilter_iff]
  · have tr : ∀ a b c : Photo, submittedDesc a b = true → submittedDesc b c = true →
        submittedDesc a c = true := by
      intro a b c hab hbc
      simp only [submittedDesc, decide_eq_true_eq] at hab hbc ⊢
      omega
    have tot : ∀ a b : Photo, (submittedDesc a b || submittedDesc b a) = true := by
      intro a b
      simp only [submittedDesc, Bool.or_eq_true, decide_eq_true_eq]
      omega
    have hs := List.sorted_mergeSort tr tot (store.filter (matchesFilter status floorId))
    refine List.Pairwise.imp ?_ hs
    intro a b h
    simpa [submittedDesc] using h
  · have hfil : store.filter (matchesFilter none none) = store :=
      List.filter_eq_self.mpr (fun a _ => rfl)
    rw [getPhotos, hfil]
    exact List.mergeSort_perm _ _

/-- Claim C7 (confirmed): a file whose lowercased extension is outside
the allow-list, or whose size exceeds the 10 MB ceiling, makes zero
image-host network calls in uploadImage, which throws instead; multer
reception also rejects it under any mimetype, and a POST /upload run
carrying such a staged file makes no host call and persists nothing. -/
theorem unsupported_or_oversized_rejected_before_network (resp : UploadResult)
    (file : UploadFile)
    (h : isFormatSupported file.path = false ∨ MAX_FILE_SIZE < file.size) :
    (uploadImage resp file).netCalls = 0 ∧
    (∃ e, (uploadImage resp file).result = .error e) ∧
    (∀ mt, multerAccepts mt file.path file.size = false) ∧
    (∀ env store req, req.file = some ⟨file.path, file.path, file.size, file.readable⟩ →
      (postUpload env store req).hostUploadCalls = 0 ∧
      (postUpload env store req).store = store) := by
  have key : ∀ hr : UploadResult,
      (uploadImage hr ⟨file.path, file.size, file.readable⟩).netCalls = 0 ∧
      ∃ e, (uploadImage hr ⟨file.path, file.size, file.readable⟩).result = .error e := by
    intro hr
    rcases h with h | h
    · exact ⟨by simp [uploadImage, h],
        ⟨"Unsupported image format", by simp [uploadImage, h]⟩⟩
    · by_cases hfmt : isFormatSupported file.path = true
      · by_cases hrd : file.readable = true
        · exact ⟨by simp [uploadImage, hfmt, hrd, h],
            ⟨"Cannot access upload file: File too large. Maximum size is 10MB.",
              by simp [uploadImage, hfmt, hrd, h]⟩⟩
        · have hrd2 : file.readable = false := by simpa using hrd
          exact ⟨by simp [uploadImage, hfmt, hrd2],
            ⟨"Cannot access upload file", by simp [uploadImage, hfmt, hrd2]⟩⟩
      · have hfmt2 : isFormatSupported file.path = false := by simpa using hfmt
        exact ⟨by simp [uploadImage, hfmt2],
          ⟨"Unsupported image format", by simp [uploadImage, hfmt2]⟩⟩
  refine ⟨(key resp).1, (key resp).2, ?_, ?_⟩
  · intro mt
    rcases h with h | h
    · have hff : fileFilterAccepts mt file.path = false := by
        rw [isFormatSupported] at h
        simp only [fileFilterAccepts, h, Bool.and_false]
      simp [multerAccepts, hff]
    · have hsz : decide (file.size ≤ MAX_FILE_SIZE) = false := by
        simp only [decide_eq_false_iff_not]
        omega
      simp [multerAccepts, hsz]
  · intro env store req hreq
    rcases key env.hostUpload with ⟨hn, e, he⟩
    by_cases hc : (!truthy req.contributor || !truthy req.floorId) = true
    · constructor <;> simp [postUpload, hreq, hc]
    · have hc2 : (!truthy req.contributor || !truthy req.floorId) = false := by
        simpa using hc
      constructor <;> simp [postUpload, hreq, hc2, he, hn]

/-- Witness for Claim C7: the guard applied to a text file. -/
theorem unsupported_or_oversized_rejected_before_network_witness :
    (uploadImage (.ok ⟨true, "img1"⟩) ⟨"notes.txt", 100, true⟩).netCalls = 0 ∧
    (∃ e, (uploadImage (.ok ⟨true, "img1"⟩) ⟨"notes.txt", 100, true⟩).result = .error e) ∧
    (∀ mt, multerAccepts mt "notes.txt" 100 = false) ∧
    (∀ env store req, req.file = some ⟨"notes.txt", "notes.txt", 100, true⟩ →
      (postUpload env store req).hostUploadCalls = 0 ∧
      (postUpload env store req).store = store) :=
  unsupported_or_oversized_rejected_before_network (.ok ⟨true, "img1"⟩)
    ⟨"notes.txt", 100, true⟩ (Or.inl (by decide))

/-- An environment whose persistence save fails. -/
def failSaveEnv : Env := { exEnv with saveOk := false }

/-- Claim C8 (confirmed): when the save fails after a successful host
upload of a valid submission, POST /upload surfaces a server error, no
record is persisted, the host was called exactly once and no
compensating image-host delete is issued. -/
theorem persistence_failure_leaves_host_image (env : Env) (store : List Photo)
    (req : UploadReq) (f : ReqFile) (cid : String) (hf : req.file = some f)
    (hc : truthy req.contributor = true) (hfl : truthy req.floorId = true)
    (hup : uploadImage env.hostUpload ⟨f.filename, f.size, f.readable⟩ =
      ⟨.ok ⟨true, cid⟩, 1⟩)
    (hsave : env.saveOk = false) :
    (∃ e, (postUpload env store req).response = .serverError e) ∧
    (postUpload env store req).store = store ∧
    (postUpload env store req).hostUploadCalls = 1 ∧
    (postUpload env store req).hostDeleteCalls = [] := by
  refine ⟨⟨"Server error during upload", ?_⟩, ?_, ?_, ?_⟩ <;>
    simp [postUpload, hf, hc, hfl, hup, hsave]

/-- Witness for Claim C8: a valid submission under an environment whose
save fails. -/
theorem persistence_failure_leaves_host_image_witness :
    (∃ e, (postUpload failSaveEnv [] exReq).response = .serverError e) ∧
    (postUpload failSaveEnv [] exReq).store = [] ∧
    (postUpload failSaveEnv [] exReq).hostUploadCalls = 1 ∧
    (postUpload failSaveEnv [] exReq).hostDeleteCalls = [] :=
  persistence_failure_leaves_host_image failSaveEnv [] exReq
    ⟨"123-456.jpg", "photo.jpg", 100, true⟩ "img1" rfl rfl rfl (by decide) rfl

/-- updateById preserves the number of stored records. -/
theorem length_updateById (store : List Photo) (id : Nat) (p : Photo) :
    (updateById store id p).length = store.length := by
  simp [updateById]

/-- A member of an updated store is the replacement or an original
member. -/
theorem mem_updateById (store : List Photo) (id : Nat) (p q : Photo)
    (h : q ∈ updateById store id p) : q = p ∨ q ∈ store := by
  rw [updateById, List.mem_map] at h
  rcases h with ⟨a, ha, hq⟩
  by_cases hid : (a.id == id) = true
  · left
    rw [← hq]
    simp [hid]
  · right
    have hid2 : (a.id == id) = false := by simpa using hid
    rw [← hq]
    simp [hid2]
    exact ha

/-- The store after PUT /:id/approve is unchanged or an update of the
found record that keeps its cloudflareId and imageUrl. -/
theorem putApprove_store_cases (env : Env) (store : List Photo) (fe : Bool) (id : Nat) :
    (putApprove env store fe id).store = store ∨
    ∃ photo p1, findById store id = some photo ∧ p1.cloudflareId = photo.cloudflareId ∧
      p1.imageUrl = photo.imageUrl ∧
      (putApprove env store fe id).store = updateById store id p1 := by
  cases hfind : findById store id with
  | none => left; simp [putApprove, hfind]
  | some photo =>
    by_cases hst : photo.status = .approved
    · left; simp [putApprove, hfind, hst]
    · by_cases hsv : env.saveOk = true
      · right
        rcases htmp : photo.tempFilePath with _ | tp
        · refine ⟨photo,
            { photo with status := Status.approved, approvedAt := some env.now },
            rfl, rfl, rfl, ?_⟩
          simp [putApprove, hfind, hst, hsv, htmp]
        · by_cases hfe : fe = true
          · by_cases hun : env.unlinkOk = true
            · refine ⟨photo,
                { photo with status := Status.approved, approvedAt := some env.now, tempFilePath := none },
                rfl, rfl, rfl, ?_⟩
              simp [putApprove, hfind, hst, hsv, htmp, hfe, hun]
            · have hun2 : env.unlinkOk = false := by simpa using hun
              refine ⟨photo,
                { photo with status := Status.approved, approvedAt := some env.now },
                rfl, rfl, rfl, ?_⟩
              simp [putApprove, hfind, hst, hsv, htmp, hfe, hun2]
          · have hfe2 : fe = false := by simpa using hfe
            refine ⟨photo,
              { photo with status := Status.approved, approvedAt := some env.now },
              rfl, rfl, rfl, ?_⟩
            simp [putApprove, hfind, hst, hsv, htmp, hfe2]
      · have hsv2 : env.saveOk = false := by simpa using hsv
        left; simp [putApprove, hfind, hst, hsv2]

/-- The store after PUT /:id/reject is unchanged or an update of the
found record that keeps its cloudflareId and imageUrl. -/
theorem putReject_store_cases (env : Env) (store : List Photo) (fe : Bool) (id : Nat) :
    (putReject env store fe id).store = store ∨
    ∃ photo p1, findById store id = some photo ∧ p1.cloudflareId = photo.cloudflareId ∧
      p1.imageUrl = photo.imageUrl ∧
      (putReject env store fe id).store = updateById store id p1 := by
  cases hfind : findById store id with
  | none => left; simp [putReject, hfind]
  | some photo =>
    by_cases hst : photo.status = .rejected
    · left; simp [putReject, hfind, hst]
    · by_cases hthrow : (photo.tempFilePath.isSome && fe && !env.unlinkOk) = true
      · left; simp [putReject, hfind, hst, hthrow]
      · have h2 : (photo.tempFilePath.isSome && fe && !env.unlinkOk) = false := by
          simpa using hthrow
        by_cases hsv : env.saveOk = true
        · right
          refine ⟨photo,
            { photo with status := Status.rejected, tempFilePath := none },
            rfl, rfl, rfl, ?_⟩
          simp [putReject, hfind, hst, h2, hsv]
        · have hsv2 : env.saveOk = false := by simpa using hsv
          left; simp [putReject, hfind, hst, h2, hsv2]

/-- Claim C9 (confirmed): under every environment, a submit endpoint
either leaves the store unchanged or appends exactly one pending record
whose cloudflareId is the id of a successful host response and whose
imageUrl is derived from that id with the fixed public variant; and the
moderation endpoints never create records nor alter any record's
cloudflareId or imageUrl. -/
theorem record_exists_only_after_host_success :
    (∀ env store req, (postUpload env store req).store = store ∨
      ∃ cid p, env.hostUpload = .ok ⟨true, cid⟩ ∧
        (postUpload env store req).store = store ++ [p] ∧
        p.status = .pending ∧ p.cloudflareId = cid ∧
        p.imageUrl = getImageUrl env.accountHash cid "public") ∧
    (∀ env store req, (postDirectUpload env store req).store = store ∨
      ∃ cid p, env.hostUpload = .ok ⟨true, cid⟩ ∧
        (postDirectUpload env store req).store = store ++ [p] ∧
        p.status = .pending ∧ p.cloudflareId = cid ∧
        p.imageUrl = getImageUrl env.accountHash cid "public") ∧
    (∀ env store fe id, (putApprove env store fe id).store.length = store.length ∧
      ∀ p, p ∈ (putApprove env store fe id).store →
        ∃ q, q ∈ store ∧ p.cloudflareId = q.cloudflareId ∧ p.imageUrl = q.imageUrl) ∧
    (∀ env store fe id, (putReject env store fe id).store.length = store.length ∧
      ∀ p, p ∈ (putReject env store fe id).store →
        ∃ q, q ∈ store ∧ p.cloudflareId = q.cloudflareId ∧ p.imageUrl = q.imageUrl) := by
  refine ⟨?_, ?_, ?_, ?_⟩
  · intro env store req
    cases hreq : req.file with
    | none => left; simp [postUpload, hreq]
    | some f =>
      by_cases hg : (!truthy req.contributor || !truthy req.floorId) = true
      · left; simp [postUpload, hreq, hg]
      · have hg2 : (!truthy req.contributor || !truthy req.floorId) = false := by
          simpa using hg
        cases hr : (uploadImage env.hostUpload ⟨f.filename, f.size, f.readable⟩).result with
        | error e => left; simp [postUpload, hreq, hg2, hr]
        | ok resp =>
          obtain ⟨s, cid⟩ := resp
          have hok : env.hostUpload = .ok ⟨s, cid⟩ := uploadImage_ok _ _ _ hr
          cases s with
          | false => left; simp [postUpload, hreq, hg2, hr]
          | true =>
            by_cases hsv : env.saveOk = true
            · right
              exact ⟨cid, mkUploadPhoto env req f cid, hok,
                by simp [postUpload, hreq, hg2, hr, hsv], rfl, rfl, rfl⟩
            · have hsv2 : env.saveOk = false := by simpa using hsv
              left; simp [postUpload, hreq, hg2, hr, hsv2]
  · intro env store req
    cases hreq : req.file with
    | none => left; simp [postDirectUpload, hreq]
    | some f =>
      cases hr : (uploadImage env.hostUpload ⟨f.filename, f.size, f.readable⟩).result with
      | error e => left; simp [postDirectUpload, hreq, hr]
      | ok resp =>
        obtain ⟨s, cid⟩ := resp
        have hok : env.hostUpload = .ok ⟨s, cid⟩ := uploadImage_ok _ _ _ hr
        cases s with
        | false => left; simp [postDirectUpload, hreq, hr]
        | true =>
          by_cases hsv : env.saveOk = true
          · right
            exact ⟨cid, mkDirectPhoto env (jsOr req.contributor "Anonymous")
              (jsOr req.floorId "Unknown") (jsOr req.roomId "") f cid, hok,
              by simp [postDirectUpload, hreq, hr, hsv], rfl, rfl, rfl⟩
          · have hsv2 : env.saveOk = false := by simpa using hsv
            left; simp [postDirectUpload, hreq, hr, hsv2]
  · intro env store fe id
    rcases putApprove_store_cases env store fe id with h | ⟨photo, p1, hfind, hcf, hurl, h⟩
    · rw [h]
      exact ⟨rfl, fun p hp => ⟨p, hp, rfl, rfl⟩⟩
    · rw [h]
      refine ⟨length_updateById store id p1, fun p hp => ?_⟩
      rcases mem_updateById store id p1 p hp with rfl | hmem
      · refine ⟨photo, ?_, hcf, hurl⟩
        rw [findById] at hfind
        exact List.mem_of_find?_eq_some hfind
      · exact ⟨p, hmem, rfl, rfl⟩
  · intro env store fe id
    rcases putReject_store_cases env store fe id with h | ⟨photo, p1, hfind, hcf, hurl, h⟩
    · rw [h]
      exact ⟨rfl, fun p hp => ⟨p, hp, rfl, rfl⟩⟩
    · rw [h]
      refine ⟨length_updateById store id p1, fun p hp => ?_⟩
      rcases mem_updateById store id p1 p hp with rfl | hmem
      · refine ⟨photo, ?_, hcf, hurl⟩
        rw [findById] at hfind
        exact List.mem_of_find?_eq_some hfind
      · exact ⟨p, hmem, rfl, rfl⟩

/-- A request whose contributor, floorId and roomId fields are all
absent. -/
def emptyFieldsReq : UploadReq :=
  { file := some ⟨"123-456.jpg", "photo.jpg", 100, true⟩,
    contributor := none, floorId := none, roomId := none }

/-- Claim C10 (confirmed): POST /direct-upload does not reject a
request with missing contributor and floorId; with the host upload and
save succeeding it persists a record whose contributor is Anonymous,
whose floorId is Unknown, whose roomId is absent (the empty default is
dropped by the record constructor) and whose status is pending. -/
theorem direct_upload_defaults_missing_fields (env : Env) (store : List Photo)
    (req : UploadReq) (f : ReqFile) (cid : String) (hf : req.file = some f)
    (hc : truthy req.contributor = false) (hfl : truthy req.floorId = false)
    (hr : truthy req.roomId = false)
    (hup : uploadImage env.hostUpload ⟨f.filename, f.size, f.readable⟩ =
      ⟨.ok ⟨true, cid⟩, 1⟩)
    (hsave : env.saveOk = true) :
    (postDirectUpload env store req).response = .created env.nextId ∧
    ∃ p, (postDirectUpload env store req).store = store ++ [p] ∧
      p.contributor = "Anonymous" ∧ p.floorId = "Unknown" ∧ p.roomId = none ∧
      p.status = .pending := by
  constructor
  · simp [postDirectUpload, hf, hup, hsave]
  · refine ⟨mkDirectPhoto env "Anonymous" "Unknown" "" f cid, ?_, rfl, rfl, ?_, rfl⟩
    · simp [postDirectUpload, hf, jsOr, hc, hfl, hr, hup, hsave]
    · simp [mkDirectPhoto]

/-- Witness for Claim C10: a direct upload with every form field
absent. -/
theorem direct_upload_defaults_missing_fields_witness :
    (postDirectUpload exEnv [] emptyFieldsReq).response = .created exEnv.nextId ∧
    ∃ p, (postDirectUpload exEnv [] emptyFieldsReq).store = [] ++ [p] ∧
      p.contributor = "Anonymous" ∧ p.floorId = "Unknown" ∧ p.roomId = none ∧
      p.status = .pending :=
  direct_upload_defaults_missing_fields exEnv [] emptyFieldsReq
    ⟨"123-456.jpg", "photo.jpg", 100, true⟩ "img1" rfl rfl rfl rfl (by decide) rfl

end SantaCruz
